import Mathlib

/- Verification of the read-sync ledger and thread-identifier resolution of
jean-claude's signal CLI (src/signal/src/main.rs), as a shallow embedding:
SQLite tables become lists of records, transactions become explicit state
passing with an injected-failure parameter, and `u64 as i64` casts are made
explicit on `Nat`/`Int`. -/

/-- Rust `u64 as i64` cast: values below `2 ^ 63` are kept, larger ones wrap
around to a negative value. Used because `mark_as_read` and `is_read` both
store and query `timestamp as i64` (main.rs:201, main.rs:212). -/
def toI64 (n : Nat) : Int :=
  if n < 2 ^ 63 then (n : Int) else (n : Int) - 2 ^ 64

/-- One row of the `read_sync` table created by `open_read_sync_db`
(main.rs:179-187): composite primary key `(sender_aci, timestamp)` with
payload column `read_at`. -/
structure ReadRecord where
  sender_aci : String
  timestamp : Int
  read_at : Int
deriving Repr, DecidableEq

/-- Contents of the `read_sync` table, rows in insertion order. A freshly
opened ledger is the empty list. -/
abbrev LedgerDB := List ReadRecord

/-- Does record `r` match the composite key `(sender, ts)`? This is the
`WHERE sender_aci = ?1 AND timestamp = ?2` predicate. -/
def keyEq (r : ReadRecord) (sender : String) (ts : Int) : Bool :=
  r.sender_aci == sender && r.timestamp == ts

/-- Does the table contain some row with key `(sender, ts)`? -/
def hasKey (db : LedgerDB) (sender : String) (ts : Int) : Bool :=
  db.any (fun r => keyEq r sender ts)

/-- All rows of `db` whose key is `(sender, ts)`. -/
def recordsFor (db : LedgerDB) (sender : String) (ts : Int) : LedgerDB :=
  db.filter (fun r => keyEq r sender ts)

/-- Number of rows under key `(sender, ts)`. -/
def countKey (db : LedgerDB) (sender : String) (ts : Int) : Nat :=
  (recordsFor db sender ts).length

/-- Table invariant enforced by the composite PRIMARY KEY of
`open_read_sync_db`: at most one row per key. -/
def WF (db : LedgerDB) : Prop :=
  ∀ (sender : String) (ts : Int), countKey db sender ts ≤ 1

/-- `read_sync::mark_as_read` (main.rs:193-205): an
`INSERT OR IGNORE INTO read_sync` of `(sender_aci, timestamp as i64, now)`.
If the key is present the statement is ignored, otherwise a new row is
appended. The wall-clock `read_at` value computed inside the Rust function
is hoisted into the parameter `now`. -/
def mark_as_read (db : LedgerDB) (sender_aci : String) (timestamp : Nat)
    (now : Int) : LedgerDB :=
  if hasKey db sender_aci (toI64 timestamp) then db
  else db ++ [{ sender_aci := sender_aci, timestamp := toI64 timestamp, read_at := now }]

/-- Errors surfaced by rusqlite in this embedding: a query that returns no
rows, and any underlying storage failure (corrupted or unreadable file,
failed write, forced failure injection). -/
inductive SqlError where
  | queryReturnedNoRows
  | storageFailure
deriving Repr, DecidableEq

/-- A connection to the read-sync database: either a readable table or a
corrupted/unreadable store on which every query fails. -/
inductive Conn where
  | ok (db : LedgerDB)
  | corrupt
deriving Repr, DecidableEq

/-- The `conn.query_row("SELECT 1 FROM read_sync WHERE ...")` call inside
`is_read` (main.rs:210-214): `Ok` when a row with the key exists, the
no-rows error when none does, and a storage error when the store is
unreadable. -/
def query_row (conn : Conn) (sender_aci : String) (ts : Int) :
    Except SqlError Unit :=
  match conn with
  | .corrupt => .error .storageFailure
  | .ok db => if hasKey db sender_aci ts then .ok () else .error .queryReturnedNoRows

/-- `read_sync::is_read` (main.rs:209-216): the query result is collapsed
with `.is_ok()`, so the function is total at type `Bool` and every error is
mapped to `false` (safe default: show as unread). -/
def is_read (conn : Conn) (sender_aci : String) (timestamp : Nat) : Bool :=
  match query_row conn sender_aci (toI64 timestamp) with
  | .ok _ => true
  | .error _ => false

/-- One attempted write inside an open transaction: write number `idx` of
the transaction fails iff the injected failure index `failAt` equals `idx`
(the spec's forced mid-batch failure); otherwise the `INSERT OR IGNORE` of
`mark_as_read` is applied to the transaction state. `failAt = none` is the
ordinary run with no injected failure. -/
def txWrite (failAt : Option Nat) (idx : Nat) (tx : LedgerDB)
    (sender_aci : String) (timestamp : Nat) (now : Int) :
    Except SqlError LedgerDB :=
  match failAt with
  | some k => if k = idx then .error .storageFailure
              else .ok (mark_as_read tx sender_aci timestamp now)
  | none => .ok (mark_as_read tx sender_aci timestamp now)

/-- One entry of a `SyncMessage.Read` payload (`sync_message::Read`): both
the sender and the timestamp are optional protobuf fields. -/
structure SyncRead where
  sender_aci : Option String
  timestamp : Option Nat
deriving Repr, DecidableEq

/-- The loop body of `process_sync_reads` (main.rs:223-228): entries with
both fields present are written to the transaction and counted, entries
missing either field are skipped; a failing write aborts the loop with the
error. Returns the count and the final transaction state at commit time. -/
def processLoop (failAt : Option Nat) (now : Int) :
    LedgerDB → Nat → Nat → List SyncRead → Except SqlError (Nat × LedgerDB)
  | tx, count, _, [] => .ok (count, tx)
  | tx, count, idx, r :: rest =>
    match r.sender_aci, r.timestamp with
    | some s, some t =>
      match txWrite failAt idx tx s t now with
      | .error e => .error e
      | .ok tx2 => processLoop failAt now tx2 (count + 1) (idx + 1) rest
    | some _, none => processLoop failAt now tx count idx rest
    | none, _ => processLoop failAt now tx count idx rest

/-- `read_sync::process_sync_reads` (main.rs:219-232): all writes happen
inside one `conn.transaction()`. On success the transaction is committed
(the new table state becomes visible); on error the early `return` drops
the transaction, which rolls it back, so the visible state is the original
`db`. -/
def process_sync_reads (db : LedgerDB) (failAt : Option Nat)
    (reads : List SyncRead) (now : Int) : Except SqlError Nat × LedgerDB :=
  match processLoop failAt now db 0 0 reads with
  | .ok (count, tx) => (.ok count, tx)
  | .error e => (.error e, db)

/-- The loop body of `mark_sender_read` (main.rs:239-242): every timestamp
is written to the transaction and counted (`count` is the Rust `i64`
counter; a slice never has more than `2 ^ 63` elements, so no wrap is
modelled). -/
def senderLoop (failAt : Option Nat) (now : Int) (sender_aci : String) :
    LedgerDB → Int → Nat → List Nat → Except SqlError (Int × LedgerDB)
  | tx, count, _, [] => .ok (count, tx)
  | tx, count, idx, ts :: rest =>
    match txWrite failAt idx tx sender_aci ts now with
    | .error e => .error e
    | .ok tx2 => senderLoop failAt now sender_aci tx2 (count + 1) (idx + 1) rest

/-- `read_sync::mark_sender_read` (main.rs:235-246): one transaction around
the timestamp loop; commit makes the writes visible, an error rolls the
whole transaction back. -/
def mark_sender_read (db : LedgerDB) (failAt : Option Nat)
    (sender_aci : String) (timestamps : List Nat) (now : Int) :
    Except SqlError Int × LedgerDB :=
  match senderLoop failAt now sender_aci db 0 0 timestamps with
  | .ok (count, tx) => (.ok count, tx)
  | .error e => (.error e, db)

/-- The entries of a sync payload that carry both fields, in order; these
are exactly the entries `process_sync_reads` writes and counts. -/
def validEntries (reads : List SyncRead) : List (String × Nat) :=
  reads.filterMap (fun r =>
    match r.sender_aci, r.timestamp with
    | some s, some t => some (s, t)
    | _, _ => none)

/-- Is `c` an ASCII hexadecimal digit (`0-9`, `a-f`, `A-F`)? Shared by the
`hex` crate's decoder and the `uuid` crate's parser. -/
def isHexDigit (c : Char) : Bool :=
  (48 ≤ c.toNat && c.toNat ≤ 57) ||
  (97 ≤ c.toNat && c.toNat ≤ 102) ||
  (65 ≤ c.toNat && c.toNat ≤ 70)

/-- Numeric value of an ASCII hexadecimal digit (0 on non-digits, which the
decoders below never feed in). -/
def hexVal (c : Char) : Nat :=
  if 48 ≤ c.toNat && c.toNat ≤ 57 then c.toNat - 48
  else if 97 ≤ c.toNat && c.toNat ≤ 102 then c.toNat - 87
  else if 65 ≤ c.toNat && c.toNat ≤ 70 then c.toNat - 55
  else 0

/-- Decode a character list as hexadecimal byte pairs: fails on odd length
or any non-hex character, otherwise yields one byte per character pair. -/
def hexDecodeList : List Char → Option (List Nat)
  | [] => some []
  | [_] => none
  | a :: b :: rest =>
    if isHexDigit a && isHexDigit b then
      (hexDecodeList rest).map (fun bs => (16 * hexVal a + hexVal b) :: bs)
    else none

/-- `hex::decode` as called on chat ids (main.rs:598, main.rs:679): the hex
crate accepts an even-length string of hex digits (either case) and returns
its bytes. Non-ASCII input always fails in both the crate and this
character-level model, so working on `String.toList` is faithful. -/
def hexDecode (s : String) : Option (List Nat) :=
  hexDecodeList s.toList

/-- The `uuid` crate's hyphenated-form parser: 36 characters with `-` at
positions 8, 13, 18 and 23 and hex digits elsewhere, yielding 16 bytes. -/
def parseHyphenated (cs : List Char) : Option (List Nat) :=
  if cs.length = 36 ∧ cs.get? 8 = some '-' ∧ cs.get? 13 = some '-' ∧
      cs.get? 18 = some '-' ∧ cs.get? 23 = some '-' then
    hexDecodeList (cs.take 8 ++ ((cs.drop 9).take 4) ++ ((cs.drop 14).take 4)
      ++ ((cs.drop 19).take 4) ++ cs.drop 24)
  else none

/-- `chat_id.parse::<Uuid>()` (main.rs:596, main.rs:677): the `uuid` crate
accepts the simple form (32 hex digits), the hyphenated form (36
characters), the braced hyphenated form (38 characters) and the URN form
(45 characters with the `urn:uuid:` lead-in), and rejects everything else.
Yields the 16 bytes of the identifier. -/
def uuidParse (s : String) : Option (List Nat) :=
  let cs := s.toList
  if cs.length = 32 then hexDecodeList cs
  else if cs.length = 36 then parseHyphenated cs
  else if cs.length = 38 ∧ cs.take 1 = [Char.ofNat 123] ∧ cs.drop 37 = [Char.ofNat 125] then
    parseHyphenated ((cs.drop 1).take 36)
  else if cs.length = 45 ∧ cs.take 9 = "urn:uuid:".toList then
    parseHyphenated (cs.drop 9)
  else none

/-- `presage::store::Thread`: a direct conversation keyed by the peer's
UUID (as its 16 bytes) or a group keyed by its 32-byte master key. The
spec calls these `DirectThread` and `GroupThread`. -/
inductive Thread where
  | contact (uuid : List Nat)
  | group (key : List Nat)
deriving Repr, DecidableEq

/-- Resolution failure: the spec's `ParseError::InvalidIdentifier`, carrying
the diagnostic message the code builds at the failure site. -/
inductive ParseErr where
  | invalidIdentifier (msg : String)
deriving Repr, DecidableEq

/-- The chat-id classification of `cmd_messages` (main.rs:596-605): first
try the UUID parser, then the hex decoder with the 32-byte length check,
else fail; both failure paths are `anyhow` errors with the fixed messages
written in the source. -/
def resolveThread (chat_id : String) : Except ParseErr Thread :=
  match uuidParse chat_id with
  | some u => .ok (.contact u)
  | none =>
    match hexDecode chat_id with
    | some master_key =>
      if master_key.length = 32 then .ok (.group master_key)
      else .error (.invalidIdentifier "Group master key must be 32 bytes")
    | none => .error (.invalidIdentifier "Invalid chat_id: must be a UUID or 64-character hex string")

/-- One message yielded by the external presage message store for a thread:
whether its body is a `DataMessage`, its sender (the ACI string rendered
from the sender UUID, which determines the UUID uniquely), and its optional
timestamp. The store itself is an external collaborator and enters the
model as a plain function from threads to message lists. -/
structure StoredMsg where
  isData : Bool
  sender : String
  timestamp : Option Nat
deriving Repr, DecidableEq

/-- The JSON output record of the mark-read command (main.rs:143-148). -/
structure MarkReadOutput where
  success : Bool
  chats_marked : Nat
  messages_marked : Int
deriving Repr, DecidableEq

/-- Failure of the mark-read command: the wrong-length group key error that
`?` propagates out of the chat-id parse (main.rs:680-682), or a storage
error propagated from `mark_sender_read` (main.rs:711). -/
inductive CmdError where
  | invalidGroupKey
  | storage (e : SqlError)
deriving Repr, DecidableEq

/-- Outcome of the chat-id classification inside `cmd_mark_read`
(main.rs:677-687): a resolved thread, a skip (the `warn!` + `continue`
branch for input that is neither a UUID nor hex), or the propagated
wrong-length error. -/
inductive ResolveOutcome where
  | resolved (t : Thread)
  | skip
  | badLength
deriving Repr, DecidableEq

/-- The chat-id `if`-chain of `cmd_mark_read` (main.rs:677-687), written as
a three-way outcome. -/
def classifyChatId (chat_id : String) : ResolveOutcome :=
  match uuidParse chat_id with
  | some u => .resolved (.contact u)
  | none =>
    match hexDecode chat_id with
    | some master_key =>
      if master_key.length = 32 then .resolved (.group master_key)
      else .badLength
    | none => .skip

/-- Does the chat id resolve to a thread in `cmd_mark_read`? -/
def resolvesOk (chat_id : String) : Bool :=
  match classifyChatId chat_id with
  | .resolved _ => true
  | .skip => false
  | .badLength => false

/-- The per-chat collection loop of `cmd_mark_read` (main.rs:692-707): keep
the `(sender_aci, timestamp)` of each stored `DataMessage` that is incoming
(sender differs from the own account), carries a timestamp, and is not yet
recorded as read. -/
def collectToMark (msgs : List StoredMsg) (myAci : String) (db : LedgerDB) :
    List (String × Nat) :=
  msgs.filterMap (fun m =>
    if m.isData then
      if m.sender ≠ myAci then
        match m.timestamp with
        | some ts => if is_read (.ok db) m.sender ts then none else some (m.sender, ts)
        | none => none
      else none
    else none)

/-- Failure injection for the mark-read command: the command-wide write
counter stands at `widx`; the single write of the next `mark_sender_read`
call fails iff the injected global failure index equals `widx`. -/
def injectAt (failAt : Option Nat) (widx : Nat) : Option Nat :=
  match failAt with
  | some k => if k = widx then some 0 else none
  | none => none

/-- The marking loop of `cmd_mark_read` (main.rs:710-712): one
`mark_sender_read` call per collected message, each with a single-element
timestamp slice, each therefore its own transaction; an error is propagated
by `?`, leaving the already committed earlier writes in place. Returns the
loop outcome, the visible table and the advanced write counter. -/
def markLoop (now : Int) (failAt : Option Nat) :
    LedgerDB → Nat → List (String × Nat) → Except SqlError Unit × LedgerDB × Nat
  | db, widx, [] => (.ok (), db, widx)
  | db, widx, (s, ts) :: rest =>
    match mark_sender_read db (injectAt failAt widx) s [ts] now with
    | (.ok _, db2) => markLoop now failAt db2 (widx + 1) rest
    | (.error e, db2) => (.error e, db2, widx + 1)

/-- The chat loop of `cmd_mark_read` (main.rs:675-715): classify each chat
id, skipping unparseable ids, propagating the wrong-length group-key error,
and for each resolved thread marking its unread incoming messages and
advancing `messages_marked` and `chats_marked`. On success the command
prints `success = true` with the two counters (main.rs:717-722). -/
def cmdLoop (store : Thread → List StoredMsg) (myAci : String) (now : Int)
    (failAt : Option Nat) :
    LedgerDB → Int → Nat → Nat → List String → Except CmdError MarkReadOutput × LedgerDB
  | db, total, chats, _, [] =>
    (.ok { success := true, chats_marked := chats, messages_marked := total }, db)
  | db, total, chats, widx, chat_id :: rest =>
    match classifyChatId chat_id with
    | .skip => cmdLoop store myAci now failAt db total chats widx rest
    | .badLength => (.error .invalidGroupKey, db)
    | .resolved thread =>
      match markLoop now failAt db widx (collectToMark (store thread) myAci db) with
      | (.ok _, db2, widx2) =>
        cmdLoop store myAci now failAt db2
          (total + (collectToMark (store thread) myAci db).length) (chats + 1) widx2 rest
      | (.error e, db2, _) => (.error (.storage e), db2)

/-- `cmd_mark_read` (main.rs:666-724) over an abstract external message
store, starting from ledger state `db` with all counters at zero. -/
def cmd_mark_read (store : Thread → List StoredMsg) (myAci : String)
    (now : Int) (failAt : Option Nat) (db : LedgerDB) (chat_ids : List String) :
    Except CmdError MarkReadOutput × LedgerDB :=
  cmdLoop store myAci now failAt db 0 0 0 chat_ids

/-- Does `hay` start with `pat`, character by character? -/
def listStartsWith : List Char → List Char → Bool
  | _, [] => true
  | [], _ :: _ => false
  | a :: as, b :: bs => a == b && listStartsWith as bs

/-- Does `hay` contain `pat` as a contiguous substring? Used to state that
a diagnostic message does not carry the offending identifier. -/
def strContainsSub (hay pat : String) : Bool :=
  (List.range (hay.toList.length + 1)).any
    (fun i => listStartsWith (hay.toList.drop i) pat.toList)

/-- A valid hyphenated UUID string, from the spec's resolver examples. -/
def uuidStrA : String := "3b241101-e2bb-4255-8caf-4136c566a962"

/-- A second valid hyphenated UUID string, for multi-chat scenarios. -/
def uuidStrB : String := "7f000001-0000-4000-8000-000000000001"

/-- Sixty-two hex characters: decodes to 31 bytes, one short of a master
key; the spec's wrong-length resolver example. -/
def hex62 : String :=
  "aaaaaaaaaaaaaaaaaaaaaaaaaaaaaaaaaaaaaaaaaaaaaaaaaaaaaaaaaaaaaa"

/-- Sixty-four hex characters: a well-formed 32-byte group master key. -/
def hex64 : String :=
  "0123456789abcdef0123456789abcdef0123456789abcdef0123456789abcdef"

/-- A concrete external message store used by counterexample runs: every
thread holds two incoming data messages from `alice`. -/
def store0 : Thread → List StoredMsg :=
  fun _ => [{ isData := true, sender := "alice", timestamp := some 1 },
            { isData := true, sender := "alice", timestamp := some 2 }]

theorem is_read_ok_eq (db : LedgerDB) (s : String) (t : Nat) :
    is_read (.ok db) s t = hasKey db s (toI64 t) := by
  unfold is_read query_row
  cases h : hasKey db s (toI64 t) <;> simp [h]

theorem recordsFor_eq_nil_of_not_hasKey {db : LedgerDB} {s : String} {ts : Int}
    (h : hasKey db s ts = false) : recordsFor db s ts = [] := by
  unfold hasKey at h
  unfold recordsFor
  rw [List.filter_eq_nil_iff]
  intro r hr hkey
  rw [← Bool.not_eq_true, List.any_eq_true] at h
  exact h ⟨r, hr, hkey⟩

theorem hasKey_iff_recordsFor {db : LedgerDB} {s : String} {ts : Int} :
    hasKey db s ts = true ↔ recordsFor db s ts ≠ [] := by
  unfold hasKey recordsFor
  rw [List.any_eq_true]
  constructor
  · rintro ⟨r, hr, hkey⟩ hnil
    rw [List.filter_eq_nil_iff] at hnil
    exact hnil r hr hkey
  · intro hne
    rcases List.exists_mem_of_ne_nil _ hne with ⟨r, hr⟩
    rcases List.mem_filter.mp hr with ⟨hmem, hkey⟩
    exact ⟨r, hmem, hkey⟩

theorem recordsFor_append (db l2 : LedgerDB) (s : String) (ts : Int) :
    recordsFor (db ++ l2) s ts = recordsFor db s ts ++ recordsFor l2 s ts := by
  unfold recordsFor
  exact List.filter_append _ _

theorem keyEq_mk_self (s : String) (ts now : Int) :
    keyEq { sender_aci := s, timestamp := ts, read_at := now } s ts = true := by
  simp [keyEq]

theorem keyEq_mk_of_ne {s s2 : String} {ts ts2 : Int} (now : Int)
    (h : ¬(s2 = s ∧ ts2 = ts)) :
    keyEq { sender_aci := s, timestamp := ts, read_at := now } s2 ts2 = false := by
  unfold keyEq
  by_cases hs : s2 = s
  · have hts : ts2 ≠ ts := fun hts => h ⟨hs, hts⟩
    simp [hs, Ne.symm hts]
  · have hb : (s == s2) = false := beq_eq_false_iff_ne.mpr (fun hss => hs hss.symm)
    simp [hb]

theorem mark_as_read_of_hasKey {db : LedgerDB} {s : String} {t : Nat} {now : Int}
    (h : hasKey db s (toI64 t) = true) : mark_as_read db s t now = db := by
  simp [mark_as_read, h]

theorem mark_as_read_of_not_hasKey {db : LedgerDB} {s : String} {t : Nat} {now : Int}
    (h : hasKey db s (toI64 t) = false) :
    mark_as_read db s t now
      = db ++ [{ sender_aci := s, timestamp := toI64 t, read_at := now }] := by
  simp [mark_as_read, h]

theorem hasKey_mark_as_read_self (db : LedgerDB) (s : String) (t : Nat) (now : Int) :
    hasKey (mark_as_read db s t now) s (toI64 t) = true := by
  cases h : hasKey db s (toI64 t)
  · rw [mark_as_read_of_not_hasKey h]
    unfold hasKey at h ⊢
    rw [List.any_append]
    simp [keyEq_mk_self]
  · rw [mark_as_read_of_hasKey h]
    exact h

theorem recordsFor_mark_as_read_frame {db : LedgerDB} {s : String} {t : Nat}
    {now : Int} {s2 : String} {ts2 : Int} (h : ¬(s2 = s ∧ ts2 = toI64 t)) :
    recordsFor (mark_as_read db s t now) s2 ts2 = recordsFor db s2 ts2 := by
  cases hk : hasKey db s (toI64 t)
  · rw [mark_as_read_of_not_hasKey hk, recordsFor_append]
    have : recordsFor [{ sender_aci := s, timestamp := toI64 t, read_at := now }] s2 ts2 = [] := by
      simp [recordsFor, keyEq_mk_of_ne now h]
    rw [this, List.append_nil]
  · rw [mark_as_read_of_hasKey hk]

theorem hasKey_mark_as_read_frame {db : LedgerDB} {s : String} {t : Nat}
    {now : Int} {s2 : String} {ts2 : Int} (h : hasKey db s2 ts2 = true) :
    hasKey (mark_as_read db s t now) s2 ts2 = true := by
  by_cases hsame : s2 = s ∧ ts2 = toI64 t
  · rcases hsame with ⟨hs, hts⟩
    subst hs; subst hts
    exact hasKey_mark_as_read_self db s2 t now
  · rw [hasKey_iff_recordsFor, recordsFor_mark_as_read_frame hsame]
    exact hasKey_iff_recordsFor.mp h

theorem recordsFor_mark_as_read_self_of_not_hasKey {db : LedgerDB} {s : String}
    {t : Nat} {now : Int} (h : hasKey db s (toI64 t) = false) :
    recordsFor (mark_as_read db s t now) s (toI64 t)
      = [{ sender_aci := s, timestamp := toI64 t, read_at := now }] := by
  rw [mark_as_read_of_not_hasKey h, recordsFor_append,
    recordsFor_eq_nil_of_not_hasKey h]
  simp [recordsFor, keyEq_mk_self]

theorem WF_mark_as_read {db : LedgerDB} (hwf : WF db) (s : String) (t : Nat)
    (now : Int) : WF (mark_as_read db s t now) := by
  intro s2 ts2
  by_cases hsame : s2 = s ∧ ts2 = toI64 t
  · rcases hsame with ⟨hs, hts⟩
    subst hs; subst hts
    cases hk : hasKey db s2 (toI64 t)
    · unfold countKey
      rw [recordsFor_mark_as_read_self_of_not_hasKey hk]
      simp
    · rw [mark_as_read_of_hasKey hk]
      exact hwf s2 (toI64 t)
  · unfold countKey
    rw [recordsFor_mark_as_read_frame hsame]
    exact hwf s2 ts2

theorem foldMark_recordsFor_of_hasKey (now : Int) {s2 : String} {ts2 : Int} :
    ∀ (l : List (String × Nat)) (db : LedgerDB), hasKey db s2 ts2 = true →
      recordsFor (l.foldl (fun d p => mark_as_read d p.1 p.2 now) db) s2 ts2
        = recordsFor db s2 ts2 := by
  intro l
  induction l with
  | nil => intro db _; rfl
  | cons p rest ih =>
    intro db hk
    rw [List.foldl_cons]
    by_cases hsame : s2 = p.1 ∧ ts2 = toI64 p.2
    · rcases hsame with ⟨hs, hts⟩
      have : mark_as_read db p.1 p.2 now = db := by
        apply mark_as_read_of_hasKey
        rw [← hs, ← hts]; exact hk
      rw [this]
      exact ih db hk
    · rw [ih _ (hasKey_mark_as_read_frame hk), recordsFor_mark_as_read_frame hsame]

theorem foldMarkNat_recordsFor_of_hasKey (now : Int) (sender : String)
    {s2 : String} {ts2 : Int} (tss : List Nat) (db : LedgerDB)
    (hk : hasKey db s2 ts2 = true) :
    recordsFor (tss.foldl (fun d ts => mark_as_read d sender ts now) db) s2 ts2
      = recordsFor db s2 ts2 := by
  have hmap : tss.foldl (fun d ts => mark_as_read d sender ts now) db
      = (tss.map (fun ts => (sender, ts))).foldl (fun d p => mark_as_read d p.1 p.2 now) db := by
    rw [List.foldl_map]
  rw [hmap]
  exact foldMark_recordsFor_of_hasKey now _ db hk

theorem senderLoop_none (now : Int) (sender : String) :
    ∀ (tss : List Nat) (tx : LedgerDB) (count : Int) (idx : Nat),
      senderLoop none now sender tx count idx tss
        = .ok (count + tss.length,
            tss.foldl (fun d ts => mark_as_read d sender ts now) tx) := by
  intro tss
  induction tss with
  | nil => intro tx count idx; simp [senderLoop]
  | cons ts rest ih =>
    intro tx count idx
    rw [senderLoop]
    simp only [txWrite]
    rw [ih]
    simp only [List.foldl_cons, List.length_cons, Except.ok.injEq, Prod.mk.injEq]
    refine ⟨by push_cast; ring, trivial⟩

theorem senderLoop_fail (now : Int) (sender : String) :
    ∀ (tss : List Nat) (tx : LedgerDB) (count : Int) (idx k : Nat),
      idx ≤ k → k < idx + tss.length →
      senderLoop (some k) now sender tx count idx tss = .error .storageFailure := by
  intro tss
  induction tss with
  | nil => intro tx count idx k h1 h2; simp at h2; omega
  | cons ts rest ih =>
    intro tx count idx k h1 h2
    rw [senderLoop]
    simp only [txWrite]
    by_cases hk : k = idx
    · simp [hk]
    · simp only [hk, if_false]
      exact ih _ (count + 1) (idx + 1) k (by omega) (by simp at h2; omega)

theorem validEntries_cons_full (s : String) (t : Nat) (rest : List SyncRead) :
    validEntries ({ sender_aci := some s, timestamp := some t } :: rest)
      = (s, t) :: validEntries rest := by
  simp [validEntries]

theorem validEntries_cons_noTs (os : Option String) (rest : List SyncRead) :
    validEntries ({ sender_aci := os, timestamp := none } :: rest)
      = validEntries rest := by
  cases os <;> simp [validEntries]

theorem validEntries_cons_noSender (ot : Option Nat) (rest : List SyncRead) :
    validEntries ({ sender_aci := none, timestamp := ot } :: rest)
      = validEntries rest := by
  simp [validEntries]

theorem processLoop_none (now : Int) :
    ∀ (reads : List SyncRead) (tx : LedgerDB) (count idx : Nat),
      processLoop none now tx count idx reads
        = .ok (count + (validEntries reads).length,
            (validEntries reads).foldl (fun d p => mark_as_read d p.1 p.2 now) tx) := by
  intro reads
  induction reads with
  | nil => intro tx count idx; simp [processLoop, validEntries]
  | cons r rest ih =>
    intro tx count idx
    rcases r with ⟨os, ot⟩
    match os, ot with
    | some s, some t =>
      rw [processLoop]
      simp only [txWrite]
      rw [ih, validEntries_cons_full]
      simp only [List.foldl_cons, List.length_cons, Except.ok.injEq, Prod.mk.injEq]
      exact ⟨by omega, trivial⟩
    | some s, none =>
      rw [processLoop, ih, validEntries_cons_noTs]
    | none, ot =>
      rw [processLoop, ih, validEntries_cons_noSender]

theorem processLoop_fail (now : Int) :
    ∀ (reads : List SyncRead) (tx : LedgerDB) (count idx k : Nat),
      idx ≤ k → k < idx + (validEntries reads).length →
      processLoop (some k) now tx count idx reads = .error .storageFailure := by
  intro reads
  induction reads with
  | nil =>
    intro tx count idx k h1 h2
    simp [validEntries] at h2
    omega
  | cons r rest ih =>
    intro tx count idx k h1 h2
    rcases r with ⟨os, ot⟩
    match os, ot with
    | some s, some t =>
      rw [processLoop]
      simp only [txWrite]
      by_cases hk : k = idx
      · simp [hk]
      · simp only [hk, if_false]
        apply ih _ (count + 1) (idx + 1) k (by omega)
        rw [validEntries_cons_full] at h2
        simp at h2
        omega
    | some s, none =>
      rw [processLoop]
      apply ih _ count idx k h1
      rw [validEntries_cons_noTs] at h2
      exact h2
    | none, ot =>
      rw [processLoop]
      apply ih _ count idx k h1
      rw [validEntries_cons_noSender] at h2
      exact h2

theorem mark_sender_read_single (db : LedgerDB) (s : String) (ts : Nat) (now : Int) :
    mark_sender_read db none s [ts] now = (.ok 1, mark_as_read db s ts now) := by
  simp [mark_sender_read, senderLoop, txWrite]

theorem markLoop_none (now : Int) :
    ∀ (l : List (String × Nat)) (db : LedgerDB) (widx : Nat),
      markLoop now none db widx l
        = (.ok (), l.foldl (fun d p => mark_as_read d p.1 p.2 now) db, widx + l.length) := by
  intro l
  induction l with
  | nil => intro db widx; simp [markLoop]
  | cons p rest ih =>
    intro db widx
    rcases p with ⟨s, ts⟩
    simp only [markLoop, injectAt, mark_sender_read_single]
    rw [ih]
    simp only [List.foldl_cons, List.length_cons, Prod.mk.injEq]
    exact ⟨trivial, trivial, by omega⟩

theorem cmdLoop_ok (store : Thread → List StoredMsg) (myAci : String) (now : Int) :
    ∀ (ids : List String) (db : LedgerDB) (total : Int) (chats widx : Nat),
      (∀ cid ∈ ids, classifyChatId cid ≠ .badLength) →
      ∃ (total2 : Int) (db2 : LedgerDB),
        cmdLoop store myAci now none db total chats widx ids
          = (.ok { success := true,
                   chats_marked := chats + (ids.filter resolvesOk).length,
                   messages_marked := total2 }, db2) := by
  intro ids
  induction ids with
  | nil =>
    intro db total chats widx _
    exact ⟨total, db, by simp [cmdLoop]⟩
  | cons cid rest ih =>
    intro db total chats widx hno
    cases hcl : classifyChatId cid with
    | skip =>
      have hres : resolvesOk cid = false := by simp [resolvesOk, hcl]
      obtain ⟨t2, d2, hrec⟩ :=
        ih db total chats widx (fun x hx => hno x (List.mem_cons_of_mem _ hx))
      refine ⟨t2, d2, ?_⟩
      simp only [cmdLoop, hcl]
      rw [hrec]
      simp [List.filter_cons, hres]
    | badLength =>
      exact absurd hcl (hno cid (List.mem_cons_self _ _))
    | resolved t =>
      have hres : resolvesOk cid = true := by simp [resolvesOk, hcl]
      obtain ⟨t2, d2, hrec⟩ :=
        ih ((collectToMark (store t) myAci db).foldl
              (fun d p => mark_as_read d p.1 p.2 now) db)
          (total + (collectToMark (store t) myAci db).length) (chats + 1)
          (widx + (collectToMark (store t) myAci db).length)
          (fun x hx => hno x (List.mem_cons_of_mem _ hx))
      refine ⟨t2, d2, ?_⟩
      simp only [cmdLoop, hcl, markLoop_none]
      rw [hrec]
      have hlen : chats + ((cid :: rest).filter resolvesOk).length
          = (chats + 1) + (rest.filter resolvesOk).length := by
        simp [List.filter_cons, hres]
        omega
      rw [hlen]


/-- C1: `is_read` is fail-safe: for any key with no record in the ledger it
returns `false`, on a corrupted or unreadable store it returns `false`, and
every failing underlying query is mapped to `false`; the function is total
at type `Bool`, so no error is ever propagated to the caller. -/
theorem is_read_fail_safe (db : LedgerDB) (s : String) (t : Nat) :
    (hasKey db s (toI64 t) = false → is_read (.ok db) s t = false)
    ∧ is_read .corrupt s t = false
    ∧ (∀ (conn : Conn) (e : SqlError),
        query_row conn s (toI64 t) = .error e → is_read conn s t = false) := by
  refine ⟨?_, rfl, ?_⟩
  · intro h
    rw [is_read_ok_eq, h]
  · intro conn e he
    unfold is_read
    rw [he]

/-- Witness for C1 at a concrete unmarked key and a corrupt store. -/
theorem is_read_fail_safe_witness :
    is_read (.ok [{ sender_aci := "b", timestamp := 2, read_at := 3 }]) "a" 100 = false
    ∧ is_read .corrupt "a" 100 = false := by
  exact ⟨(is_read_fail_safe [{ sender_aci := "b", timestamp := 2, read_at := 3 }] "a" 100).1
      (by decide),
    (is_read_fail_safe [] "a" 100).2.1⟩

/-- C2 counterexample: a bulk mark-read request covering N = 2 messages
with a storage failure injected after the first write leaves one record of
the batch visible, not zero: `cmd_mark_read` issues one single-insert
transaction per message (main.rs:710-712), so the earlier commit survives
the later failure. -/
theorem cmd_mark_read_partial_batch_visible :
    cmd_mark_read store0 "me" 7 (some 1) [] [uuidStrA]
      = (.error (.storage .storageFailure),
         [{ sender_aci := "alice", timestamp := 1, read_at := 7 }])
    ∧ is_read (.ok (cmd_mark_read store0 "me" 7 (some 1) [] [uuidStrA]).2) "alice" 1 = true := by
  exact ⟨rfl, rfl⟩

/-- C2 amended: each ledger-level batch write — one `process_sync_reads`
call (one sync payload) or one `mark_sender_read` call — is a single
transaction: with no failure every entry of the batch becomes visible, and
with a failure injected at any write index below the batch size zero
records of the batch are visible (the table is left unchanged). -/
theorem ledger_batch_atomicity :
    (∀ (db : LedgerDB) (sender : String) (tss : List Nat) (now : Int) (k : Nat),
        k < tss.length →
        mark_sender_read db (some k) sender tss now = (.error .storageFailure, db))
    ∧ (∀ (db : LedgerDB) (reads : List SyncRead) (now : Int) (k : Nat),
        k < (validEntries reads).length →
        process_sync_reads db (some k) reads now = (.error .storageFailure, db))
    ∧ (∀ (db : LedgerDB) (sender : String) (tss : List Nat) (now : Int),
        mark_sender_read db none sender tss now
          = (.ok (tss.length : Int),
             tss.foldl (fun d ts => mark_as_read d sender ts now) db))
    ∧ (∀ (db : LedgerDB) (reads : List SyncRead) (now : Int),
        process_sync_reads db none reads now
          = (.ok (validEntries reads).length,
             (validEntries reads).foldl (fun d p => mark_as_read d p.1 p.2 now) db)) := by
  refine ⟨?_, ?_, ?_, ?_⟩
  · intro db sender tss now k hk
    unfold mark_sender_read
    rw [senderLoop_fail now sender tss db 0 0 k (Nat.zero_le k) (by omega)]
  · intro db reads now k hk
    unfold process_sync_reads
    rw [processLoop_fail now reads db 0 0 k (Nat.zero_le k) (by omega)]
  · intro db sender tss now
    unfold mark_sender_read
    rw [senderLoop_none]
    simp
  · intro db reads now
    unfold process_sync_reads
    rw [processLoop_none]
    simp

/-- Witness for C2 (amended) at concrete failing batches. -/
theorem ledger_batch_atomicity_witness :
    mark_sender_read [] (some 1) "s" [1, 2, 3] 7 = (.error .storageFailure, [])
    ∧ process_sync_reads [] (some 0)
        [{ sender_aci := some "a", timestamp := some 1 }] 7
      = (.error .storageFailure, []) := by
  exact ⟨ledger_batch_atomicity.1 [] "s" [1, 2, 3] 7 1 (by decide),
    ledger_batch_atomicity.2.1 [] [{ sender_aci := some "a", timestamp := some 1 }] 7 0
      (by decide)⟩

/-- C3: marking the same key twice leaves exactly one record under that key
and `is_read` answers `true` after either call, given the primary-key
invariant on the starting table. -/
theorem mark_read_idempotent (db : LedgerDB) (s : String) (t : Nat)
    (now1 now2 : Int) (hwf : WF db) :
    countKey (mark_as_read (mark_as_read db s t now1) s t now2) s (toI64 t) = 1
    ∧ is_read (.ok (mark_as_read db s t now1)) s t = true
    ∧ is_read (.ok (mark_as_read (mark_as_read db s t now1) s t now2)) s t = true := by
  have h1 : hasKey (mark_as_read db s t now1) s (toI64 t) = true :=
    hasKey_mark_as_read_self db s t now1
  have h2 : mark_as_read (mark_as_read db s t now1) s t now2 = mark_as_read db s t now1 :=
    mark_as_read_of_hasKey h1
  refine ⟨?_, ?_, ?_⟩
  · rw [h2]
    cases hk : hasKey db s (toI64 t)
    · unfold countKey
      rw [recordsFor_mark_as_read_self_of_not_hasKey hk]
      rfl
    · rw [mark_as_read_of_hasKey hk]
      have hle := hwf s (toI64 t)
      have hne := hasKey_iff_recordsFor.mp hk
      have hpos : 0 < (recordsFor db s (toI64 t)).length := List.length_pos.mpr hne
      unfold countKey at hle ⊢
      omega
  · rw [is_read_ok_eq]
    exact h1
  · rw [is_read_ok_eq, h2]
    exact h1

/-- Witness for C3 on the empty (freshly created) table. -/
theorem mark_read_idempotent_witness :
    countKey (mark_as_read (mark_as_read [] "a" 5 7) "a" 5 9) "a" (toI64 5) = 1
    ∧ is_read (.ok (mark_as_read [] "a" 5 7)) "a" 5 = true := by
  have h := mark_read_idempotent [] "a" 5 7 9
    (fun s ts => by simp [countKey, recordsFor])
  exact ⟨h.1, h.2.1⟩

/-- C4: chat-id resolution classifies in order: a string the UUID parser
accepts yields a direct (contact) thread; otherwise hex input decoding to
exactly 32 bytes yields a group thread carrying exactly those bytes; every
remaining input fails with the invalid-identifier error, among them the
62-hex-character string and `"not-a-valid-id"`. -/
theorem resolve_thread_classification :
    (∀ (s : String) (u : List Nat), uuidParse s = some u →
        resolveThread s = .ok (.contact u))
    ∧ (∀ (s : String) (key : List Nat), uuidParse s = none →
        hexDecode s = some key → key.length = 32 →
        resolveThread s = .ok (.group key))
    ∧ (∀ (s : String) (key : List Nat), uuidParse s = none →
        hexDecode s = some key → key.length ≠ 32 →
        resolveThread s
          = .error (.invalidIdentifier "Group master key must be 32 bytes"))
    ∧ (∀ (s : String), uuidParse s = none → hexDecode s = none →
        resolveThread s
          = .error (.invalidIdentifier "Invalid chat_id: must be a UUID or 64-character hex string"))
    ∧ resolveThread hex62
        = .error (.invalidIdentifier "Group master key must be 32 bytes")
    ∧ resolveThread "not-a-valid-id"
        = .error (.invalidIdentifier "Invalid chat_id: must be a UUID or 64-character hex string") := by
  refine ⟨?_, ?_, ?_, ?_, rfl, rfl⟩
  · intro s u hu
    simp [resolveThread, hu]
  · intro s key hu hh hl
    simp [resolveThread, hu, hh, hl]
  · intro s key hu hh hl
    simp [resolveThread, hu, hh, hl]
  · intro s hu hh
    simp [resolveThread, hu, hh]

/-- Witness for C4 at the spec's four resolver examples. -/
theorem resolve_thread_classification_witness :
    resolveThread uuidStrA
      = .ok (.contact [59, 36, 17, 1, 226, 187, 66, 85, 140, 175, 65, 54, 197, 102, 169, 98])
    ∧ resolveThread hex64
      = .ok (.group [1, 35, 69, 103, 137, 171, 205, 239, 1, 35, 69, 103, 137, 171, 205, 239,
          1, 35, 69, 103, 137, 171, 205, 239, 1, 35, 69, 103, 137, 171, 205, 239])
    ∧ resolveThread hex62
        = .error (.invalidIdentifier "Group master key must be 32 bytes")
    ∧ resolveThread "not-a-valid-id"
        = .error (.invalidIdentifier "Invalid chat_id: must be a UUID or 64-character hex string") := by
  exact ⟨resolve_thread_classification.1 uuidStrA _ (by decide),
    resolve_thread_classification.2.1 hex64 _ (by decide) (by decide) (by decide),
    resolve_thread_classification.2.2.1 hex62 (List.replicate 31 170) (by decide) (by decide)
      (by decide),
    resolve_thread_classification.2.2.2.1 "not-a-valid-id" (by decide) (by decide)⟩

/-- C5: `mark_sender_read` returns the number of timestamps supplied,
counting already-read entries and duplicates as attempted inserts; in
particular a request for `[100, 200, 100]` with `100` already read returns
3, not the number of new rows. -/
theorem mark_sender_read_count_semantics :
    (∀ (db : LedgerDB) (sender : String) (tss : List Nat) (now : Int),
        (mark_sender_read db none sender tss now).1 = .ok (tss.length : Int))
    ∧ (mark_sender_read [{ sender_aci := "s", timestamp := 100, read_at := 5 }]
        none "s" [100, 200, 100] 9).1 = .ok 3 := by
  constructor
  · intro db sender tss now
    unfold mark_sender_read
    rw [senderLoop_none]
    simp
  · rfl

/-- C6: `process_sync_reads` skips entries missing the sender or the
timestamp: they are neither inserted nor counted and do not fail the batch;
the count is the number of complete entries and the resulting table is the
table with exactly the complete entries inserted. -/
theorem process_sync_reads_skips_incomplete :
    (∀ (db : LedgerDB) (reads : List SyncRead) (now : Int),
        process_sync_reads db none reads now
          = (.ok (validEntries reads).length,
             (validEntries reads).foldl (fun d p => mark_as_read d p.1 p.2 now) db))
    ∧ process_sync_reads []
        none
        [{ sender_aci := some "a", timestamp := some 1 },
         { sender_aci := none, timestamp := some 2 },
         { sender_aci := some "c", timestamp := none }] 7
      = (.ok 1, [{ sender_aci := "a", timestamp := 1, read_at := 7 }]) := by
  constructor
  · intro db reads now
    unfold process_sync_reads
    rw [processLoop_none]
    simp
  · rfl

/-- C7: records are never updated in place: re-inserting an existing key
leaves the whole table unchanged; an insert leaves the records of every
other key unchanged; the at-most-one-record-per-key invariant is preserved;
and the batch operations leave the records of any already-present key,
including the stored `read_at` value, unchanged. -/
theorem read_record_never_updated (db : LedgerDB) (s : String) (t : Nat) (now : Int) :
    (hasKey db s (toI64 t) = true → mark_as_read db s t now = db)
    ∧ (∀ (s2 : String) (ts2 : Int), ¬(s2 = s ∧ ts2 = toI64 t) →
        recordsFor (mark_as_read db s t now) s2 ts2 = recordsFor db s2 ts2)
    ∧ (WF db → WF (mark_as_read db s t now))
    ∧ (∀ (sender : String) (tss : List Nat) (s2 : String) (ts2 : Int),
        hasKey db s2 ts2 = true →
        recordsFor ((mark_sender_read db none sender tss now).2) s2 ts2
          = recordsFor db s2 ts2)
    ∧ (∀ (reads : List SyncRead) (s2 : String) (ts2 : Int),
        hasKey db s2 ts2 = true →
        recordsFor ((process_sync_reads db none reads now).2) s2 ts2
          = recordsFor db s2 ts2) := by
  refine ⟨fun h => mark_as_read_of_hasKey h,
    fun s2 ts2 h => recordsFor_mark_as_read_frame h,
    fun hwf => WF_mark_as_read hwf s t now, ?_, ?_⟩
  · intro sender tss s2 ts2 hk
    unfold mark_sender_read
    rw [senderLoop_none]
    exact foldMarkNat_recordsFor_of_hasKey now sender tss db hk
  · intro reads s2 ts2 hk
    unfold process_sync_reads
    rw [processLoop_none]
    exact foldMark_recordsFor_of_hasKey now (validEntries reads) db hk

/-- Witness for C7 at concrete single-record tables. -/
theorem read_record_never_updated_witness :
    mark_as_read [{ sender_aci := "a", timestamp := 5, read_at := 3 }] "a" 5 9
      = [{ sender_aci := "a", timestamp := 5, read_at := 3 }]
    ∧ recordsFor (mark_as_read [{ sender_aci := "a", timestamp := 5, read_at := 3 }] "b" 6 9)
        "a" 5
      = recordsFor [{ sender_aci := "a", timestamp := 5, read_at := 3 }] "a" 5
    ∧ WF (mark_as_read [] "a" 5 9)
    ∧ recordsFor
        ((mark_sender_read [{ sender_aci := "a", timestamp := 5, read_at := 3 }]
            none "a" [5, 6] 9).2) "a" 5
      = recordsFor [{ sender_aci := "a", timestamp := 5, read_at := 3 }] "a" 5
    ∧ recordsFor
        ((process_sync_reads [{ sender_aci := "a", timestamp := 5, read_at := 3 }]
            none [{ sender_aci := some "a", timestamp := some 5 }] 9).2) "a" 5
      = recordsFor [{ sender_aci := "a", timestamp := 5, read_at := 3 }] "a" 5 := by
  exact ⟨(read_record_never_updated
        [{ sender_aci := "a", timestamp := 5, read_at := 3 }] "a" 5 9).1 (by decide),
    (read_record_never_updated
        [{ sender_aci := "a", timestamp := 5, read_at := 3 }] "b" 6 9).2.1 "a" 5 (by decide),
    (read_record_never_updated [] "a" 5 9).2.2.1
      (fun s ts => by simp [countKey, recordsFor]),
    (read_record_never_updated
        [{ sender_aci := "a", timestamp := 5, read_at := 3 }] "a" 5 9).2.2.2.1
      "a" [5, 6] "a" 5 (by decide),
    (read_record_never_updated
        [{ sender_aci := "a", timestamp := 5, read_at := 3 }] "a" 5 9).2.2.2.2
      [{ sender_aci := some "a", timestamp := some 5 }] "a" 5 (by decide)⟩

/-- C8 counterexample: resolution failures do not carry the offending
identifier: the diagnostic for `"not-a-valid-id"` does not contain that
string and is identical to the diagnostic for a different invalid
identifier, and the wrong-length diagnostic for the 62-character hex string
does not contain that string either. -/
theorem resolve_error_lacks_identifier :
    resolveThread "not-a-valid-id"
      = .error (.invalidIdentifier "Invalid chat_id: must be a UUID or 64-character hex string")
    ∧ strContainsSub "Invalid chat_id: must be a UUID or 64-character hex string"
        "not-a-valid-id" = false
    ∧ resolveThread "not-a-valid-id" = resolveThread "!!another-bad-id!!"
    ∧ resolveThread hex62
        = .error (.invalidIdentifier "Group master key must be 32 bytes")
    ∧ strContainsSub "Group master key must be 32 bytes" hex62 = false := by
  exact ⟨rfl, by decide, rfl, rfl, by decide⟩

/-- C8 amended: resolution failures carry fixed diagnostic messages chosen
only by the failure case — not hex at all versus hex of the wrong byte
length — and not derived from the offending identifier string. -/
theorem resolve_error_fixed_messages (s : String) :
    (uuidParse s = none → hexDecode s = none →
      resolveThread s
        = .error (.invalidIdentifier "Invalid chat_id: must be a UUID or 64-character hex string"))
    ∧ (∀ (key : List Nat), uuidParse s = none → hexDecode s = some key →
        key.length ≠ 32 →
        resolveThread s
          = .error (.invalidIdentifier "Group master key must be 32 bytes")) := by
  constructor
  · intro hu hh
    simp [resolveThread, hu, hh]
  · intro key hu hh hl
    simp [resolveThread, hu, hh, hl]

/-- Witness for C8 (amended) at the two failing example identifiers. -/
theorem resolve_error_fixed_messages_witness :
    resolveThread "not-a-valid-id"
      = .error (.invalidIdentifier "Invalid chat_id: must be a UUID or 64-character hex string")
    ∧ resolveThread hex62
        = .error (.invalidIdentifier "Group master key must be 32 bytes") := by
  exact ⟨(resolve_error_fixed_messages "not-a-valid-id").1 (by decide) (by decide),
    (resolve_error_fixed_messages hex62).2 (List.replicate 31 170) (by decide) (by decide)
      (by decide)⟩

/-- C9: round trip on a fresh ledger: the two-entry sync batch returns 2,
after which `is_read "a" 100` is `true` and `is_read "a" 999` is `false`,
whatever the wall-clock value. -/
theorem round_trip_scenario (now : Int) :
    (process_sync_reads [] none
        [{ sender_aci := some "a", timestamp := some 100 },
         { sender_aci := some "b", timestamp := some 200 }] now).1 = .ok 2
    ∧ is_read (.ok (process_sync_reads [] none
        [{ sender_aci := some "a", timestamp := some 100 },
         { sender_aci := some "b", timestamp := some 200 }] now).2) "a" 100 = true
    ∧ is_read (.ok (process_sync_reads [] none
        [{ sender_aci := some "a", timestamp := some 100 },
         { sender_aci := some "b", timestamp := some 200 }] now).2) "a" 999 = false := by
  exact ⟨rfl, rfl, rfl⟩

/-- C10 counterexample: a mark-read request whose only chat id is hex of
the wrong length (62 characters, so neither a UUID nor 32-byte hex) makes
the whole command fail with the propagated group-key error instead of
skipping the identifier and reporting success. -/
theorem cmd_mark_read_bad_hex_fails :
    cmd_mark_read store0 "me" 7 none [] [hex62] = (.error .invalidGroupKey, []) := by
  rfl

/-- C10 amended: when every supplied chat id either resolves or parses as
neither UUID nor hex (the skip case), the command succeeds: unparseable
identifiers are skipped with a warning, every resolved chat is processed,
and `chats_marked` counts exactly the resolved identifiers; an identifier
that is hex of the wrong byte length instead aborts the whole command. -/
theorem cmd_mark_read_skips_unparseable (store : Thread → List StoredMsg)
    (myAci : String) (now : Int) (db : LedgerDB) (ids : List String)
    (hno : ∀ cid ∈ ids, classifyChatId cid ≠ .badLength) :
    ∃ (total : Int) (db2 : LedgerDB),
      cmd_mark_read store myAci now none db ids
        = (.ok { success := true,
                 chats_marked := (ids.filter resolvesOk).length,
                 messages_marked := total }, db2) := by
  have h := cmdLoop_ok store myAci now ids db 0 0 0 hno
  simpa [cmd_mark_read] using h

/-- Witness for C10 (amended): one unparseable id among one valid UUID id;
the command succeeds and counts one chat. -/
theorem cmd_mark_read_skips_unparseable_witness :
    ∃ (total : Int) (db2 : LedgerDB),
      cmd_mark_read store0 "me" 7 none [] ["not-a-valid-id", uuidStrA]
        = (.ok { success := true, chats_marked := 1, messages_marked := total }, db2) := by
  have h := cmd_mark_read_skips_unparseable store0 "me" 7 [] ["not-a-valid-id", uuidStrA]
    (by decide)
  have hlen : ((["not-a-valid-id", uuidStrA].filter resolvesOk).length) = 1 := by decide
  rw [hlen] at h
  exact h
